import Mathlib

/-!
Verification of the web-image-optimizer repository (src/main.rs,
src/optimizer.rs, src/utils.rs) against its specification.

Modelling conventions of this shallow embedding:
- Rust `usize` values are modelled as `Nat`; the conversions `try_into`
  between `u32` and `usize` always succeed and are modelled as identities.
- A Rust panic (for example a division by zero) is modelled with `Option`:
  `none` is a panic that escapes, `some` a normal result.
- Functions returning `anyhow::Result` are modelled with `Except Err`.
- Filesystem side effects (directory creation, file writes) are modelled as
  an explicit trace: a run produces the list of filesystem events it emitted
  before finishing or failing.  `File::create` and `write_all` themselves are
  modelled as never failing, so an `IoError` never occurs in the model.
- The external `std::path::Path` API is modelled by the record `SrcPath`
  holding the three observables the code reads from the source path:
  `parent` (as a list of components), `file_stem` and `extension`.
- The decoded source image (`image::DynamicImage`) is modelled by its
  observables: `width`, `height` and the length of `as_bytes()`.
- The pixel content of buffers is irrelevant to every claim, so buffers are
  modelled by their lengths, and encoded outputs by a descriptor recording
  which encoder ran, at which dimensions and quality.
-/

namespace ImageOptimizer

/-- Error values of the program.  Each constructor stands for one concrete
`anyhow!` message of the source:
`noWorkRequested` = "Either widths or quality must be provided" (main.rs);
`mustProvideCompressor` = "Must provide a quality value/compressor to compress an image";
`mustProvideTarget` = "Must provide at least one resize target size";
`noParentDirectory` = "Provided image must have a parent directory";
`noFileStem` = "Error getting file name";
`noExtension` = "Expected an extension present on image path";
`resizerCreation` = "Error creating resizer";
`resizeFailed` = "Error resizing image";
`compressionFailed` = "Error compressing image" (a caught panic);
`dataToVecFailed` = "Image compression failed". -/
inductive Err where
  | noWorkRequested
  | mustProvideCompressor
  | mustProvideTarget
  | noParentDirectory
  | noFileStem
  | noExtension
  | resizerCreation
  | resizeFailed
  | compressionFailed
  | dataToVecFailed
  deriving DecidableEq, Repr

/-- The `Encoder` enum of optimizer.rs: `WebP` and `MozJpeg`. -/
inductive Encoder where
  | webP
  | mozJpeg
  deriving DecidableEq, Repr

/-- The `Compressor` struct of optimizer.rs.  The Rust `quality` field is an
`f32`; the program never does arithmetic on it (it is only stored, rendered
with `format!` and passed to the encoders), so it is modelled as a rational
number. -/
structure Compressor where
  quality : ℚ
  encoder : Encoder
  deriving DecidableEq, Repr

/-- `Compressor::new`: quality as given, encoder defaulting to `MozJpeg`. -/
def Compressor.new (quality : ℚ) : Compressor :=
  ⟨quality, Encoder.mozJpeg⟩

/-- `Compressor::set_quality`. -/
def Compressor.set_quality (c : Compressor) (quality : ℚ) : Compressor :=
  ⟨quality, c.encoder⟩

/-- `Compressor::set_encoder`. -/
def Compressor.set_encoder (c : Compressor) (encoder : Encoder) : Compressor :=
  ⟨c.quality, encoder⟩

/-- Model of the decoded source image (`image::DynamicImage`): its
dimensions and the length of the byte buffer returned by `as_bytes()`.
The length is not constrained to `width * height * 3`: a decoded image with
an alpha channel, for example, has a longer buffer. -/
structure Img where
  width : Nat
  height : Nat
  bytesLen : Nat
  deriving DecidableEq, Repr

/-- Model of the observables the code reads from the source path through the
external `std::path` API: `Path::parent` (as directory components),
`Path::file_stem` and `Path::extension`; `none` models the accessor
returning `None`. -/
structure SrcPath where
  parent : Option (List String)
  stem : Option String
  ext : Option String
  deriving DecidableEq, Repr

/-- The `Optimizer` struct of optimizer.rs. -/
structure Optimizer where
  img : Img
  base_path : SrcPath
  target_sizes : List (Nat × Nat)
  compressor : Option Compressor
  deriving DecidableEq, Repr

/-- `Optimizer::new`: no targets, no compressor. -/
def Optimizer.new (img : Img) (img_path : SrcPath) : Optimizer :=
  ⟨img, img_path, [], none⟩

/-- `Optimizer::set_encoder`: creates a `Compressor::new(75.0)` first when
none is present, then sets the encoder on it. -/
def Optimizer.set_encoder (o : Optimizer) (encoder : Encoder) : Optimizer :=
  match o.compressor with
  | none => { o with compressor := some ((Compressor.new 75).set_encoder encoder) }
  | some c => { o with compressor := some (c.set_encoder encoder) }

/-- `Optimizer::set_quality`: creates a `Compressor::new(quality)` when none
is present, else updates the quality of the existing one. -/
def Optimizer.set_quality (o : Optimizer) (quality : ℚ) : Optimizer :=
  match o.compressor with
  | none => { o with compressor := some (Compressor.new quality) }
  | some c => { o with compressor := some (c.set_quality quality) }

/-- `Optimizer::set_targets`. -/
def Optimizer.set_targets (o : Optimizer) (target_sizes : List (Nat × Nat)) : Optimizer :=
  { o with target_sizes := target_sizes }

/-- `Optimizer::add_target`. -/
def Optimizer.add_target (o : Optimizer) (target : Nat × Nat) : Optimizer :=
  { o with target_sizes := o.target_sizes ++ [target] }

/-- `Optimizer::get_img_dimensions` (the `u32` to `usize` conversions always
succeed). -/
def Optimizer.get_img_dimensions (o : Optimizer) : Nat × Nat :=
  (o.img.width, o.img.height)

/-- The `ResizeConfig` struct of utils.rs. -/
structure ResizeConfig where
  src_height : Nat
  src_width : Nat
  dest_height : Nat
  dest_width : Nat
  deriving DecidableEq, Repr

/-- Descriptor of an encoded output buffer: which encoder produced it, at
which dimensions and quality.  The actual encoded bytes come from the
external codec libraries and are irrelevant to every claim. -/
structure EncodedImage where
  encoder : Encoder
  width : Nat
  height : Nat
  quality : ℚ
  deriving DecidableEq, Repr

/-- Embedding of `utils::resize`.  The buffer is represented by its length
`imgLen`; the result is the length of the resized buffer, which the code
preallocates as `dest_width * dest_height` RGB pixels.  The failure
conditions of the external `resize` crate follow the specification of the
Resampler collaborator: construction fails on a degenerate (zero) dimension
("Error creating resizer"), and resizing fails when the source buffer length
does not match `src_width * src_height * 3` ("Error resizing image"). -/
def resize (imgLen : Nat) (config : ResizeConfig) : Except Err Nat :=
  if config.src_width = 0 ∨ config.src_height = 0 ∨
      config.dest_width = 0 ∨ config.dest_height = 0 then
    Except.error Err.resizerCreation
  else if imgLen ≠ config.src_width * config.src_height * 3 then
    Except.error Err.resizeFailed
  else
    Except.ok (config.dest_width * config.dest_height * 3)

/-- The body of the `catch_unwind` closure inside `utils::compress_mozjpeg`.
`none` models a panic escaping the closure.  The external mozjpeg encoder is
modelled after the buffer-shape precondition documented for the
baseline-lossy backend: `write_scanlines` succeeds exactly when the buffer
length equals `width * height * 3`, so the `assert!` around it panics
exactly on a mismatched buffer; `data_to_vec` is modelled as succeeding
because `set_mem_dest` is always called first, so `dataToVecFailed` cannot
occur. -/
def mozjpeg_encode_body (imgLen width height : Nat) (quality : ℚ) :
    Option (Except Err EncodedImage) :=
  if imgLen = width * height * 3 then
    some (Except.ok ⟨Encoder.mozJpeg, width, height, quality⟩)
  else
    none

/-- Embedding of `utils::compress_mozjpeg`: runs the encoder body under
`catch_unwind`, mapping a panic to the anyhow error "Error compressing
image" (`Err.compressionFailed`) instead of letting it escape. -/
def compress_mozjpeg (imgLen width height : Nat) (quality : ℚ) :
    Except Err EncodedImage :=
  match mozjpeg_encode_body imgLen width height quality with
  | none => Except.error Err.compressionFailed
  | some r => r

/-- Embedding of `utils::compress_webp`: the Rust function always returns
`Ok` (the external webp encoder reports no failure through this interface). -/
def compress_webp (_imgLen width height : Nat) (quality : ℚ) :
    Except Err EncodedImage :=
  Except.ok ⟨Encoder.webP, width, height, quality⟩

/-- Rendering of the quality value by `format!`, modelling the Rust
`Display` of `f32`: an integral value prints without a decimal part, exactly
as Rust prints `75.0_f32` as "75".  For the non-integral rationals, which no
claim and no default ever uses, the rendering falls back to the `Rat`
string. -/
def renderQuality (q : ℚ) : String :=
  if q.den = 1 then toString q.num else toString q

/-- A fully derived output path: the destination directory (as components)
and the file name inside it. -/
structure SavePath where
  dir : List String
  name : String
  deriving DecidableEq, Repr

/-- Payload of a file write: an encoded buffer, or a raw RGB8 buffer saved
through `image::save_buffer` with the given dimensions and length. -/
inductive FileData where
  | encoded (e : EncodedImage)
  | raw (width height len : Nat)
  deriving DecidableEq, Repr

/-- A filesystem side effect of a run. -/
inductive FsEvent where
  | ensureDir (dir : List String)
  | writeFile (path : SavePath) (data : FileData)
  deriving DecidableEq, Repr

/-- A run result: the trace of filesystem events emitted, in order, together
with the final outcome. -/
abbrev Run (α : Type) : Type := List FsEvent × Except Err α

/-- Embedding of `Optimizer::generate_save_path`.  Mirrors the source
step by step: take the parent directory (failing when absent), push
"optimized", take the file stem (failing when absent), append an underscore
and the width, then, with a compressor present, append an underscore, the
rendered quality and a dot followed by the source extension (`MozJpeg`,
failing when the extension is absent) or by "webp" (`WebP`); with no
compressor, append a dot and the source extension (failing when absent). -/
def generate_save_path (o : Optimizer) (w : Nat) : Except Err SavePath :=
  match o.base_path.parent with
  | none => Except.error Err.noParentDirectory
  | some parentDir =>
    match o.base_path.stem with
    | none => Except.error Err.noFileStem
    | some stem =>
      match o.compressor with
      | some compressor =>
        match compressor.encoder with
        | Encoder.mozJpeg =>
          match o.base_path.ext with
          | none => Except.error Err.noExtension
          | some ext =>
            Except.ok ⟨parentDir ++ ["optimized"],
              stem ++ "_" ++ toString w ++ "_" ++ renderQuality compressor.quality ++ "." ++ ext⟩
        | Encoder.webP =>
          Except.ok ⟨parentDir ++ ["optimized"],
            stem ++ "_" ++ toString w ++ "_" ++ renderQuality compressor.quality ++ "." ++ "webp"⟩
      | none =>
        match o.base_path.ext with
        | none => Except.error Err.noExtension
        | some ext =>
          Except.ok ⟨parentDir ++ ["optimized"],
            stem ++ "_" ++ toString w ++ "." ++ ext⟩

/-- Embedding of `utils::ensure_parent_directory_exists` applied to a save
path: it (idempotently) creates the parent directory of the file, which is
exactly the `dir` component of the path. -/
def ensure_parent_directory_exists (path : SavePath) : FsEvent :=
  FsEvent.ensureDir path.dir

/-- Embedding of `Optimizer::compress_self`: requires a compressor, derives
the save path at the source width, encodes the source buffer at the source
dimensions with the selected encoder, then ensures the directory and writes
the single output file. -/
def compress_self (o : Optimizer) : Run Unit :=
  match o.compressor with
  | none => ([], Except.error Err.mustProvideCompressor)
  | some compressor =>
    match generate_save_path o o.img.width with
    | Except.error e => ([], Except.error e)
    | Except.ok write_path =>
      match (match compressor.encoder with
             | Encoder.webP =>
               compress_webp o.img.bytesLen o.img.width o.img.height compressor.quality
             | Encoder.mozJpeg =>
               compress_mozjpeg o.img.bytesLen o.img.width o.img.height compressor.quality) with
      | Except.error e => ([], Except.error e)
      | Except.ok optimized =>
        ([ensure_parent_directory_exists write_path,
          FsEvent.writeFile write_path (FileData.encoded optimized)], Except.ok ())

/-- One iteration of the loop in `Optimizer::resize_and_maybe_compress`:
derive the save path for the target width, resize the source buffer to the
target dimensions, then either encode with the selected encoder and write,
or write the raw resized buffer through `image::save_buffer` (RGB8). -/
def process_variant (o : Optimizer) (target : Nat × Nat) : Run Unit :=
  match generate_save_path o target.fst with
  | Except.error e => ([], Except.error e)
  | Except.ok write_path =>
    match resize o.img.bytesLen ⟨o.img.height, o.img.width, target.snd, target.fst⟩ with
    | Except.error e => ([], Except.error e)
    | Except.ok resizedLen =>
      match o.compressor with
      | some compressor =>
        match (match compressor.encoder with
               | Encoder.webP =>
                 compress_webp resizedLen target.fst target.snd compressor.quality
               | Encoder.mozJpeg =>
                 compress_mozjpeg resizedLen target.fst target.snd compressor.quality) with
        | Except.error e => ([], Except.error e)
        | Except.ok optimized =>
          ([ensure_parent_directory_exists write_path,
            FsEvent.writeFile write_path (FileData.encoded optimized)], Except.ok ())
      | none =>
        ([ensure_parent_directory_exists write_path,
          FsEvent.writeFile write_path (FileData.raw target.fst target.snd resizedLen)],
         Except.ok ())

/-- The `for` loop of `Optimizer::resize_and_maybe_compress`: the variants
are processed strictly in the order given; the `?` operator makes the first
failing variant abort the run, keeping the events already emitted. -/
def process_variants (o : Optimizer) : List (Nat × Nat) → Run Unit
  | [] => ([], Except.ok ())
  | t :: ts =>
    match process_variant o t with
    | (ev, Except.error e) => (ev, Except.error e)
    | (ev, Except.ok _) =>
      (ev ++ (process_variants o ts).fst, (process_variants o ts).snd)

/-- Embedding of `Optimizer::resize_and_maybe_compress`: fails when no
target size is present, else runs the per-variant loop. -/
def resize_and_maybe_compress (o : Optimizer) : Run Unit :=
  if o.target_sizes.isEmpty then
    ([], Except.error Err.mustProvideTarget)
  else
    process_variants o o.target_sizes

/-- Embedding of `Optimizer::optimize`: dispatches on the number of target
sizes, exactly as the source matches on `target_sizes.len()`. -/
def optimize (o : Optimizer) : Run Unit :=
  match o.target_sizes.length with
  | 0 => compress_self o
  | _ + 1 => resize_and_maybe_compress o

/-- Embedding of `compute_height_preserving_aspect_ratio` of main.rs.  The
Rust body is `factor = w / target_width; h / factor` on `usize`; a Rust
division by zero panics, modelled as `none`: the first guard models
`target_width == 0`, the second the divide by zero that occurs when
`factor == 0`, that is when `target_width > w`. -/
def compute_height_preserving_aspect_ratio
    (img_dimensions : Nat × Nat) (target_width : Nat) : Option Nat :=
  if target_width = 0 then none
  else
    if img_dimensions.fst / target_width = 0 then none
    else some (img_dimensions.snd / (img_dimensions.fst / target_width))

/-- The loop of main.rs computing `(target_width, target_height)` pairs for
every requested width, in order; a panic in any height computation is a
panic of the whole loop. -/
def compute_target_dimensions (dims : Nat × Nat) :
    List Nat → Option (List (Nat × Nat))
  | [] => some []
  | tw :: rest =>
    match compute_height_preserving_aspect_ratio dims tw with
    | none => none
    | some th =>
      match compute_target_dimensions dims rest with
      | none => none
      | some l => some ((tw, th) :: l)

/-- Embedding of `main` of main.rs, after the source image has been decoded
by the external image library: guard rejecting a run with neither widths nor
quality, computation of the target dimensions (which can panic, hence the
outer `Option`), the three configuration steps in source order (targets,
quality, encoder), then `optimize`. -/
def main (img : Img) (img_src : SrcPath) (widths : Option (List Nat))
    (quality : Option ℚ) (encoder : Option Encoder) : Option (Run Unit) :=
  if widths.isNone ∧ quality.isNone then
    some ([], Except.error Err.noWorkRequested)
  else
    match (match widths with
           | none => some (Optimizer.new img img_src)
           | some target_widths =>
             match compute_target_dimensions (img.width, img.height) target_widths with
             | none => none
             | some dims => some ((Optimizer.new img img_src).set_targets dims)) with
    | none => none
    | some opt1 =>
      let opt2 := match quality with
                  | none => opt1
                  | some q => opt1.set_quality q
      let opt3 := match encoder with
                  | none => opt2
                  | some e => opt2.set_encoder e
      some (optimize opt3)

/-- The file writes contained in a trace of filesystem events, in order. -/
def writesOf (evs : List FsEvent) : List (SavePath × FileData) :=
  evs.filterMap (fun e =>
    match e with
    | FsEvent.writeFile p d => some (p, d)
    | FsEvent.ensureDir _ => none)

/-- Decidable success test for one variant of the resize loop. -/
def variantOk (o : Optimizer) (t : Nat × Nat) : Bool :=
  match (process_variant o t).snd with
  | Except.ok _ => true
  | Except.error _ => false

/-- One configuration call on the `Optimizer`, as performed by callers
before `optimize` (the four public setters). -/
inductive ConfigOp where
  | setQuality (q : ℚ)
  | setEncoder (e : Encoder)
  | setTargets (ts : List (Nat × Nat))
  | addTarget (t : Nat × Nat)
  deriving DecidableEq, Repr

/-- Application of one configuration call. -/
def applyConfigOp (o : Optimizer) : ConfigOp → Optimizer
  | ConfigOp.setQuality q => o.set_quality q
  | ConfigOp.setEncoder e => o.set_encoder e
  | ConfigOp.setTargets ts => o.set_targets ts
  | ConfigOp.addTarget t => o.add_target t

/-- Application of a sequence of configuration calls, in order. -/
def applyConfigOps (o : Optimizer) : List ConfigOp → Optimizer
  | [] => o
  | op :: ops => applyConfigOps (applyConfigOp o op) ops

/-- Recognizer for quality-setting configuration calls. -/
def ConfigOp.isSetQuality : ConfigOp → Bool
  | ConfigOp.setQuality _ => true
  | _ => false

/-- Recognizer for encoder-setting configuration calls. -/
def ConfigOp.isSetEncoder : ConfigOp → Bool
  | ConfigOp.setEncoder _ => true
  | _ => false

/-- Success-shape lemma for `generate_save_path`: a successful derivation
exposes the parent components and stem of the source path, places the file
in the `optimized` subdirectory of the parent, and builds the file name in
one of the three branch-determined forms. -/
theorem generate_save_path_ok (o : Optimizer) (w : Nat) (p : SavePath)
    (h : generate_save_path o w = Except.ok p) :
    ∃ par stem, o.base_path.parent = some par ∧ o.base_path.stem = some stem ∧
      p.dir = par ++ ["optimized"] ∧
      ((o.compressor = none ∧ ∃ ext, o.base_path.ext = some ext ∧
          p.name = stem ++ "_" ++ toString w ++ "." ++ ext) ∨
       (∃ c, o.compressor = some c ∧
         ((c.encoder = Encoder.webP ∧
             p.name = stem ++ "_" ++ toString w ++ "_" ++
               renderQuality c.quality ++ "." ++ "webp") ∨
          (c.encoder = Encoder.mozJpeg ∧ ∃ ext, o.base_path.ext = some ext ∧
             p.name = stem ++ "_" ++ toString w ++ "_" ++
               renderQuality c.quality ++ "." ++ ext)))) := by
  obtain ⟨pdir, pname⟩ := p
  cases hpar : o.base_path.parent with
  | none => simp [generate_save_path, hpar] at h
  | some par =>
    cases hstem : o.base_path.stem with
    | none => simp [generate_save_path, hpar, hstem] at h
    | some st =>
      cases hcomp : o.compressor with
      | none =>
        cases hext : o.base_path.ext with
        | none => simp [generate_save_path, hpar, hstem, hcomp, hext] at h
        | some ext =>
          simp only [generate_save_path, hpar, hstem, hcomp, hext,
            Except.ok.injEq, SavePath.mk.injEq] at h
          obtain ⟨hd, hn⟩ := h
          subst hd
          subst hn
          exact ⟨par, st, rfl, rfl, rfl, Or.inl ⟨rfl, ext, rfl, rfl⟩⟩
      | some c =>
        cases henc : c.encoder with
        | webP =>
          simp only [generate_save_path, hpar, hstem, hcomp, henc,
            Except.ok.injEq, SavePath.mk.injEq] at h
          obtain ⟨hd, hn⟩ := h
          subst hd
          subst hn
          exact ⟨par, st, rfl, rfl, rfl, Or.inr ⟨c, rfl, Or.inl ⟨henc, rfl⟩⟩⟩
        | mozJpeg =>
          cases hext : o.base_path.ext with
          | none => simp [generate_save_path, hpar, hstem, hcomp, henc, hext] at h
          | some ext =>
            simp only [generate_save_path, hpar, hstem, hcomp, henc, hext,
              Except.ok.injEq, SavePath.mk.injEq] at h
            obtain ⟨hd, hn⟩ := h
            subst hd
            subst hn
            exact ⟨par, st, rfl, rfl, rfl, Or.inr ⟨c, rfl, Or.inr ⟨henc, ext, rfl, rfl⟩⟩⟩

/-- Dispatch lemma: with no target sizes, `optimize` runs `compress_self`. -/
theorem optimize_nil (o : Optimizer) (h : o.target_sizes = []) :
    optimize o = compress_self o := by
  unfold optimize
  rw [h]
  rfl

/-- Dispatch lemma: with at least one target size, `optimize` runs the
per-variant loop. -/
theorem optimize_cons (o : Optimizer) (h : o.target_sizes ≠ []) :
    optimize o = process_variants o o.target_sizes := by
  cases hts : o.target_sizes with
  | nil => exact absurd hts h
  | cons a l =>
    unfold optimize resize_and_maybe_compress
    rw [hts]
    rfl

/-- Claim C1.  The claim states that for positive source dimensions and a
target width strictly greater than the source width, the dimension
computation fails with an `InvalidTarget` error and never panics or divides
by zero.  The code has no error path at all: with source dimensions
(800, 600) and target width 900 the scaling factor `800 / 900` truncates to
zero and the following `h / factor` is a division by zero, a panic
(modelled as `none`), instead of the `InvalidTarget` error the
specification requires.  The specification itself documents this very
divide-by-zero as something that "must fail with an InvalidTarget error",
so the claim is right and the code is a slip. -/
theorem C1_target_width_exceeds_source_panics :
    compute_height_preserving_aspect_ratio (800, 600) 900 = none := rfl

/-- Claim C2, counterexample.  The claim states that under the
divisibility hypothesis the returned height equals
`source_height * target_width / source_width` exactly, calling it the true
proportional value.  At source dimensions (4, 3) and target width 2 (which
divides 4), the code returns 1, while the true proportional value is
3 * 2 / 4 = 3/2, not an integer at all: the result is the truncation of the
proportional value, not the value itself. -/
theorem C2_not_true_proportional :
    compute_height_preserving_aspect_ratio (4, 3) 2 = some 1 ∧
      (1 : ℚ) ≠ (3 * 2 : ℚ) / 4 :=
  ⟨rfl, by norm_num⟩

/-- Claim C2, amended.  For all positive `source_width`, `source_height`
and `target_width` such that `target_width` evenly divides `source_width`,
the dimension computation returns
`source_height * target_width / source_width` computed with truncating
integer division. -/
theorem C2_truncating_division_formula (sw sh tw : ℕ)
    (h1 : 0 < sw) (h2 : 0 < sh) (h3 : 0 < tw) (hd : tw ∣ sw) :
    compute_height_preserving_aspect_ratio (sw, sh) tw = some (sh * tw / sw) := by
  obtain ⟨k, hk⟩ := hd
  have hk0 : 0 < k := by
    rcases Nat.eq_zero_or_pos k with h | h
    · rw [h, Nat.mul_zero] at hk
      omega
    · exact h
  have hfac : sw / tw = k := by
    rw [hk]
    exact Nat.mul_div_cancel_left k h3
  have hrhs : sh * tw / sw = sh / k := by
    rw [hk, mul_comm sh tw]
    exact Nat.mul_div_mul_left sh k h3
  simp [compute_height_preserving_aspect_ratio, hfac, h3.ne', hk0.ne', hrhs]

/-- Claim C2, amended, instantiated witness: at source dimensions
(800, 600) and target width 400 the hypotheses hold and the computation
returns 600 * 400 / 800 = 300. -/
theorem C2_truncating_division_formula_witness :
    0 < 800 ∧ 400 ∣ 800 ∧
      compute_height_preserving_aspect_ratio (800, 600) 400 = some (600 * 400 / 800) :=
  ⟨by decide, by decide,
    C2_truncating_division_formula 800 600 400 (by decide) (by decide) (by decide) (by decide)⟩

/-- Claim C10.  For every source image and every target width satisfying
`source_width / 2 < target_width ≤ source_width`, the truncated scaling
factor is 1, so the computation returns the source height unchanged: the
output is not proportionally scaled for any such non-equal width. -/
theorem C10_factor_one_keeps_height (sw sh tw : ℕ)
    (h1 : sw / 2 < tw) (h2 : tw ≤ sw) :
    compute_height_preserving_aspect_ratio (sw, sh) tw = some sh := by
  have htw : 0 < tw := by omega
  have hfac : sw / tw = 1 := by
    have hlo : 1 ≤ sw / tw := (Nat.one_le_div_iff htw).mpr h2
    have hhi : sw / tw < 2 := (Nat.div_lt_iff_lt_mul htw).mpr (by omega)
    omega
  simp [compute_height_preserving_aspect_ratio, hfac, htw.ne']

/-- Claim C10, instantiated witness: 800 / 2 < 500 ≤ 800 and the computed
height at target width 500 is the unchanged source height 600. -/
theorem C10_factor_one_keeps_height_witness :
    800 / 2 < 500 ∧ 500 ≤ 800 ∧
      compute_height_preserving_aspect_ratio (800, 600) 500 = some 600 :=
  ⟨by decide, by decide, C10_factor_one_keeps_height 800 600 500 (by decide) (by decide)⟩

/-- A concrete 800 by 600 RGB source image at `photos/raw/img.png` with no
compression configured, used to evaluate the path naming on a concrete
input. -/
def sampleNoCompressor : Optimizer :=
  ⟨⟨800, 600, 1440000⟩, ⟨some ["photos", "raw"], some "img", some "png"⟩, [], none⟩

/-- The same concrete source configured with quality 90 and the WebP
encoder and no target widths. -/
def sampleWebP : Optimizer :=
  ⟨⟨800, 600, 1440000⟩, ⟨some ["photos", "raw"], some "img", some "png"⟩, [],
    some ⟨90, Encoder.webP⟩⟩

/-- A concrete optimizer whose source path has no file stem, with a
compression config present and no target widths. -/
def sampleNoStem : Optimizer :=
  ⟨⟨800, 600, 1440000⟩, ⟨some ["photos", "raw"], none, some "png"⟩, [],
    some ⟨80, Encoder.webP⟩⟩

/-- Claim C5.  For every successful path derivation: with compression
absent the name is the stem, the width and the original extension with no
quality suffix; with the WebP encoder the extension is "webp" whatever the
source extension is (the source extension is not even read, so no
hypothesis on it is needed); with the MozJpeg encoder the extension is the
original one and the rendered quality is appended between the width and the
dot. -/
theorem C5_name_suffix_and_extension (o : Optimizer) (w : Nat) (p : SavePath)
    (h : generate_save_path o w = Except.ok p) :
    (o.compressor = none → ∃ stem ext,
        o.base_path.stem = some stem ∧ o.base_path.ext = some ext ∧
        p.name = stem ++ "_" ++ toString w ++ "." ++ ext) ∧
    (∀ c, o.compressor = some c → c.encoder = Encoder.webP →
        ∃ stem, o.base_path.stem = some stem ∧
        p.name = stem ++ "_" ++ toString w ++ "_" ++
          renderQuality c.quality ++ "." ++ "webp") ∧
    (∀ c, o.compressor = some c → c.encoder = Encoder.mozJpeg →
        ∃ stem ext, o.base_path.stem = some stem ∧ o.base_path.ext = some ext ∧
        p.name = stem ++ "_" ++ toString w ++ "_" ++
          renderQuality c.quality ++ "." ++ ext) := by
  obtain ⟨par, st, hpar, hstem, hdir, hcase⟩ := generate_save_path_ok o w p h
  refine ⟨?_, ?_, ?_⟩
  · intro hnone
    rcases hcase with ⟨_, ext, hext, hname⟩ | ⟨c, hc, _⟩
    · exact ⟨st, ext, hstem, hext, hname⟩
    · rw [hnone] at hc
      exact absurd hc (by simp)
  · intro c hc hwebp
    rcases hcase with ⟨hnone, _⟩ | ⟨c2, hc2, sub⟩
    · rw [hnone] at hc
      exact absurd hc (by simp)
    · rw [hc] at hc2
      have hcc : c = c2 := by
        injection hc2
      subst hcc
      rcases sub with ⟨_, hname⟩ | ⟨hmoz, _⟩
      · exact ⟨st, hstem, hname⟩
      · rw [hwebp] at hmoz
        exact absurd hmoz (by simp)
  · intro c hc hmoz
    rcases hcase with ⟨hnone, _⟩ | ⟨c2, hc2, sub⟩
    · rw [hnone] at hc
      exact absurd hc (by simp)
    · rw [hc] at hc2
      have hcc : c = c2 := by
        injection hc2
      subst hcc
      rcases sub with ⟨hwebp, _⟩ | ⟨_, ext, hext, hname⟩
      · rw [hmoz] at hwebp
        exact absurd hwebp (by simp)
      · exact ⟨st, ext, hstem, hext, hname⟩

/-- Claim C5, instantiated witness: on the concrete compression-absent
optimizer at width 400 the derivation succeeds with the name
"img_400.png", and the three branch statements hold for it. -/
theorem C5_name_suffix_and_extension_witness :
    generate_save_path sampleNoCompressor 400 =
        Except.ok ⟨["photos", "raw", "optimized"], "img_400.png"⟩ ∧
    ((sampleNoCompressor.compressor = none → ∃ stem ext,
        sampleNoCompressor.base_path.stem = some stem ∧
        sampleNoCompressor.base_path.ext = some ext ∧
        (SavePath.mk ["photos", "raw", "optimized"] "img_400.png").name =
          stem ++ "_" ++ toString 400 ++ "." ++ ext) ∧
     (∀ c, sampleNoCompressor.compressor = some c → c.encoder = Encoder.webP →
        ∃ stem, sampleNoCompressor.base_path.stem = some stem ∧
        (SavePath.mk ["photos", "raw", "optimized"] "img_400.png").name =
          stem ++ "_" ++ toString 400 ++ "_" ++
            renderQuality c.quality ++ "." ++ "webp") ∧
     (∀ c, sampleNoCompressor.compressor = some c → c.encoder = Encoder.mozJpeg →
        ∃ stem ext, sampleNoCompressor.base_path.stem = some stem ∧
        sampleNoCompressor.base_path.ext = some ext ∧
        (SavePath.mk ["photos", "raw", "optimized"] "img_400.png").name =
          stem ++ "_" ++ toString 400 ++ "_" ++
            renderQuality c.quality ++ "." ++ ext)) :=
  ⟨rfl, C5_name_suffix_and_extension sampleNoCompressor 400
    ⟨["photos", "raw", "optimized"], "img_400.png"⟩ rfl⟩

/-- Claim C6, counterexample.  The claim places the `optimized` directory
as a sibling of the source directory.  For the source file
`photos/raw/img.png` the source directory is `photos/raw`, whose sibling
directory would be `photos/optimized`, but the code derives
`photos/raw/optimized`: the `optimized` directory is a subdirectory of the
source directory (a sibling of the source file itself), not a sibling of
that directory. -/
theorem C6_not_sibling_of_source_directory :
    generate_save_path sampleNoCompressor 400 =
        Except.ok ⟨["photos", "raw", "optimized"], "img_400.png"⟩ ∧
      (["photos", "raw", "optimized"] : List String) ≠
        List.dropLast ["photos", "raw"] ++ ["optimized"] := by
  constructor
  · rfl
  · decide

/-- Claim C6, amended.  For every successfully derived output path, the
destination directory is the subdirectory named "optimized" of the source
directory itself (a sibling of the source file), and the file name begins
with the source stem with an underscore and the width appended, before the
optional quality suffix and the extension. -/
theorem C6_optimized_subdirectory_and_stem (o : Optimizer) (w : Nat) (p : SavePath)
    (h : generate_save_path o w = Except.ok p) :
    ∃ par stem, o.base_path.parent = some par ∧ o.base_path.stem = some stem ∧
      p.dir = par ++ ["optimized"] ∧
      ∃ rest, p.name = stem ++ "_" ++ toString w ++ rest := by
  obtain ⟨par, st, hpar, hstem, hdir, hcase⟩ := generate_save_path_ok o w p h
  refine ⟨par, st, hpar, hstem, hdir, ?_⟩
  rcases hcase with ⟨_, ext, _, hname⟩ | ⟨c, _, ⟨_, hname⟩ | ⟨_, ext, _, hname⟩⟩
  · exact ⟨"." ++ ext, by rw [hname]; simp [String.append_assoc]⟩
  · exact ⟨"_" ++ renderQuality c.quality ++ "." ++ "webp",
      by rw [hname]; simp [String.append_assoc]⟩
  · exact ⟨"_" ++ renderQuality c.quality ++ "." ++ ext,
      by rw [hname]; simp [String.append_assoc]⟩

/-- Claim C6, amended, instantiated witness on the concrete optimizer at
width 400. -/
theorem C6_optimized_subdirectory_and_stem_witness :
    generate_save_path sampleNoCompressor 400 =
        Except.ok ⟨["photos", "raw", "optimized"], "img_400.png"⟩ ∧
    ∃ par stem, sampleNoCompressor.base_path.parent = some par ∧
      sampleNoCompressor.base_path.stem = some stem ∧
      (SavePath.mk ["photos", "raw", "optimized"] "img_400.png").dir =
        par ++ ["optimized"] ∧
      ∃ rest,
        (SavePath.mk ["photos", "raw", "optimized"] "img_400.png").name =
          stem ++ "_" ++ toString 400 ++ rest :=
  ⟨rfl, C6_optimized_subdirectory_and_stem sampleNoCompressor 400
    ⟨["photos", "raw", "optimized"], "img_400.png"⟩ rfl⟩

/-- Claim C3, counterexample.  The claim states that every optimizer with
zero target widths and a compression config present writes exactly one
output file when `optimize` is invoked.  On a source path with no file
stem the path derivation fails, the run returns an error and writes
nothing, so the universally quantified claim is false as stated. -/
theorem C3_failure_writes_no_file :
    optimize sampleNoStem = ([], Except.error Err.noFileStem) ∧
      writesOf (optimize sampleNoStem).fst = [] :=
  ⟨rfl, rfl⟩

/-- Claim C3, amended.  For every optimizer with zero target widths and a
compression config present whose `optimize` run succeeds, the run performs
exactly one file write, whose payload is the source image encoded once at
its original dimensions with the configured encoder and quality, and whose
file name embeds the source width and the rendered configured quality. -/
theorem C3_single_write_on_success (o : Optimizer) (c : Compressor)
    (h1 : o.target_sizes = []) (h2 : o.compressor = some c)
    (hok : (optimize o).snd = Except.ok ()) :
    ∃ p, writesOf (optimize o).fst =
        [(p, FileData.encoded ⟨c.encoder, o.img.width, o.img.height, c.quality⟩)] ∧
      ∃ stem rest, o.base_path.stem = some stem ∧
        p.name = stem ++ "_" ++ toString o.img.width ++ "_" ++
          renderQuality c.quality ++ "." ++ rest := by
  have heq := optimize_nil o h1
  rw [heq] at hok ⊢
  unfold compress_self at hok ⊢
  rw [h2] at hok ⊢
  cases hgsp : generate_save_path o o.img.width with
  | error e =>
    rw [hgsp] at hok
    simp at hok
  | ok wp =>
    rw [hgsp] at hok
    dsimp only at hok ⊢
    obtain ⟨par, st, hpar, hstem, hdir, hcase⟩ :=
      generate_save_path_ok o o.img.width wp hgsp
    rcases hcase with ⟨hnone, _⟩ | ⟨c2, hc2, sub⟩
    · rw [h2] at hnone
      exact absurd hnone (by simp)
    · rw [h2] at hc2
      have hcc : c = c2 := by
        injection hc2
      subst hcc
      rcases sub with ⟨hwebp, hname⟩ | ⟨hmoz, ext, hext, hname⟩
      · rw [hwebp] at hok ⊢
        refine ⟨wp, ?_, st, "webp", hstem, hname⟩
        simp [compress_webp, writesOf, ensure_parent_directory_exists]
      · rw [hmoz] at hok ⊢
        cases hmj : compress_mozjpeg o.img.bytesLen o.img.width o.img.height c.quality with
        | error e =>
          rw [hmj] at hok
          simp at hok
        | ok enc =>
          have henc : enc = ⟨Encoder.mozJpeg, o.img.width, o.img.height, c.quality⟩ := by
            unfold compress_mozjpeg mozjpeg_encode_body at hmj
            by_cases hlen : o.img.bytesLen = o.img.width * o.img.height * 3
            · rw [if_pos hlen] at hmj
              injection hmj with hmj2
              exact hmj2.symm
            · rw [if_neg hlen] at hmj
              exact absurd hmj (by simp)
          refine ⟨wp, ?_, st, ext, hstem, hname⟩
          simp [writesOf, ensure_parent_directory_exists, henc]

/-- Claim C3, amended, instantiated witness: the concrete WebP optimizer
with no target widths succeeds and performs exactly one write, encoded at
800 by 600 with quality 90, under the name "img_800_90.webp". -/
theorem C3_single_write_on_success_witness :
    (optimize sampleWebP).snd = Except.ok () ∧
    ∃ p, writesOf (optimize sampleWebP).fst =
        [(p, FileData.encoded ⟨Encoder.webP, 800, 600, (90 : ℚ)⟩)] ∧
      ∃ stem rest, sampleWebP.base_path.stem = some stem ∧
        p.name = stem ++ "_" ++ toString 800 ++ "_" ++
          renderQuality (90 : ℚ) ++ "." ++ rest :=
  ⟨rfl, C3_single_write_on_success sampleWebP ⟨90, Encoder.webP⟩ rfl rfl rfl⟩

/-- Claim C4.  Invoking the program with no target widths and no
compression configured fails with a configuration error before any
filesystem event: with the widths argument absent the guard in `main`
rejects the run with "Either widths or quality must be provided", and with
an empty widths list and no quality or encoder the run reaches
`compress_self`, which rejects it with "Must provide a quality
value/compressor to compress an image"; in both cases the emitted
filesystem trace is empty. -/
theorem C4_no_work_configuration_error (img : Img) (bp : SrcPath) :
    main img bp none none none = some ([], Except.error Err.noWorkRequested) ∧
      main img bp (some []) none none =
        some ([], Except.error Err.mustProvideCompressor) := by
  constructor
  · rfl
  · rfl

/-- Claim C7.  The baseline-lossy path accepts exactly the buffers whose
length is `width * height * 3` (the encoding succeeds precisely on a
matching buffer and fails with an error, not a crash, on any other), and a
panic of the encoder body is converted by the `catch_unwind` wrapper into
the recoverable "Error compressing image" failure returned to the caller.
The totality of `compress_mozjpeg` as a function into `Except` is the
modelled statement that no panic escapes to terminate the process. -/
theorem C7_mozjpeg_buffer_validation (imgLen width height : Nat) (q : ℚ) :
    ((compress_mozjpeg imgLen width height q).isOk = true ↔
        imgLen = width * height * 3) ∧
    (mozjpeg_encode_body imgLen width height q = none →
        compress_mozjpeg imgLen width height q =
          Except.error Err.compressionFailed) := by
  constructor
  · unfold compress_mozjpeg mozjpeg_encode_body
    by_cases hlen : imgLen = width * height * 3
    · simp [hlen, Except.isOk, Except.toBool]
    · simp [hlen, Except.isOk, Except.toBool]
  · intro hb
    unfold compress_mozjpeg
    rw [hb]

/-- Claim C7, instantiated witness: a 13-byte buffer for a 2 by 2 RGB image
(which needs 12 bytes) makes the encoder body panic, and the wrapper turns
the panic into the recoverable error. -/
theorem C7_mozjpeg_buffer_validation_witness :
    compress_mozjpeg 13 2 2 (80 : ℚ) = Except.error Err.compressionFailed ∧
      13 ≠ 2 * 2 * 3 :=
  ⟨(C7_mozjpeg_buffer_validation 13 2 2 80).2 rfl, by decide⟩

/-- Success of one variant exposed as the plain equation on the run
outcome. -/
theorem variantOk_ok (o : Optimizer) (t : Nat × Nat) (h : variantOk o t = true) :
    (process_variant o t).snd = Except.ok () := by
  unfold variantOk at h
  cases hpv : (process_variant o t).snd with
  | ok u =>
    cases u
    rfl
  | error e =>
    rw [hpv] at h
    simp at h

/-- Sequential composition of the variant loop: a prefix of successful
variants contributes its filesystem events in order, before whatever the
rest of the list produces. -/
theorem process_variants_ok_prefix (o : Optimizer) :
    ∀ l1 l2 : List (Nat × Nat), (∀ t ∈ l1, variantOk o t = true) →
      process_variants o (l1 ++ l2) =
        ((l1.flatMap fun t => (process_variant o t).fst) ++
            (process_variants o l2).fst,
          (process_variants o l2).snd) := by
  intro l1
  induction l1 with
  | nil =>
    intro l2 h
    simp [process_variants]
  | cons t l1 ih =>
    intro l2 h
    have hok := variantOk_ok o t (h t (List.mem_cons_self t l1))
    have hrest : ∀ x ∈ l1, variantOk o x = true :=
      fun x hx => h x (List.mem_cons_of_mem t hx)
    cases hpv : process_variant o t with
    | mk ev r =>
      rw [hpv] at hok
      dsimp at hok
      subst hok
      rw [List.cons_append]
      simp only [process_variants, hpv, ih l2 hrest]
      simp [hpv, List.append_assoc]

/-- Fail-fast of the variant loop: a failing head variant ends the run with
its error, keeping only the events the head emitted. -/
theorem process_variants_first_error (o : Optimizer) (t : Nat × Nat)
    (l2 : List (Nat × Nat)) (e : Err)
    (hpv : (process_variant o t).snd = Except.error e) :
    process_variants o (t :: l2) = ((process_variant o t).fst, Except.error e) := by
  cases hp : process_variant o t with
  | mk ev r =>
    rw [hp] at hpv
    dsimp at hpv
    subst hpv
    simp [process_variants, hp]

/-- Claim C8.  For every run with one or more target widths, the variants
are processed strictly in the order given, each one fully handled (path
derivation, resize, optional encoding, write) before the next begins: when
every variant of a prefix succeeds and the next variant fails, the run
stops with that first error and its event trace is exactly the
concatenation, in list order, of the events of the successful prefix
(whose writes therefore remain) followed by the events of the failing
variant; when every variant succeeds the trace is the full in-order
concatenation and the run succeeds. -/
theorem C8_sequential_fail_fast (o : Optimizer) :
    (∀ l1 t l2 e, o.target_sizes = l1 ++ t :: l2 →
        (∀ x ∈ l1, variantOk o x = true) →
        (process_variant o t).snd = Except.error e →
        optimize o = ((l1.flatMap fun x => (process_variant o x).fst) ++
          (process_variant o t).fst, Except.error e)) ∧
    (o.target_sizes ≠ [] → (∀ x ∈ o.target_sizes, variantOk o x = true) →
        optimize o = ((o.target_sizes.flatMap fun x => (process_variant o x).fst),
          Except.ok ())) := by
  constructor
  · intro l1 t l2 e hts hpre herr
    have hne : o.target_sizes ≠ [] := by
      rw [hts]
      simp
    rw [optimize_cons o hne, hts, process_variants_ok_prefix o l1 (t :: l2) hpre,
      process_variants_first_error o t l2 e herr]
  · intro hne hall
    rw [optimize_cons o hne]
    have hsplit := process_variants_ok_prefix o o.target_sizes [] hall
    rw [List.append_nil] at hsplit
    rw [hsplit]
    simp [process_variants]

/-- A concrete run with two target widths whose second variant fails: the
source is 800 by 600 at `photos/raw/img.png` with no compression, the first
target is 400 by 300 and the second has a zero width, on which the
resampler cannot be constructed. -/
def sampleResizeRun : Optimizer :=
  ⟨⟨800, 600, 1440000⟩, ⟨some ["photos", "raw"], some "img", some "png"⟩,
    [(400, 300), (0, 0)], none⟩

/-- Claim C8, instantiated witness: the first variant is written, the
second fails on resampler construction, the run stops with that error and
the write of the first variant remains in the trace. -/
theorem C8_sequential_fail_fast_witness :
    optimize sampleResizeRun =
      ([FsEvent.ensureDir ["photos", "raw", "optimized"],
        FsEvent.writeFile ⟨["photos", "raw", "optimized"], "img_400.png"⟩
          (FileData.raw 400 300 360000)],
       Except.error Err.resizerCreation) :=
  (C8_sequential_fail_fast sampleResizeRun).1 [(400, 300)] (0, 0) [] Err.resizerCreation
    rfl
    (by
      intro x hx
      rw [List.mem_singleton] at hx
      subst hx
      rfl)
    rfl

/-- Preservation: every configuration call keeps an already-present
compressor present. -/
theorem applyConfigOps_keeps_some :
    ∀ (ops : List ConfigOp) (o : Optimizer), o.compressor.isSome = true →
      (applyConfigOps o ops).compressor.isSome = true := by
  intro ops
  induction ops with
  | nil =>
    intro o h
    exact h
  | cons op ops ih =>
    intro o h
    refine ih (applyConfigOp o op) ?_
    cases op with
    | setQuality q =>
      cases hc : o.compressor with
      | none =>
        rw [hc] at h
        simp at h
      | some c =>
        simp [applyConfigOp, Optimizer.set_quality, hc]
    | setEncoder e =>
      cases hc : o.compressor with
      | none => simp [applyConfigOp, Optimizer.set_encoder, hc]
      | some c => simp [applyConfigOp, Optimizer.set_encoder, hc]
    | setTargets ts =>
      simpa [applyConfigOp, Optimizer.set_targets] using h
    | addTarget t =>
      simpa [applyConfigOp, Optimizer.add_target] using h

/-- Reachability: a sequence containing at least one quality or encoder
setter leaves a compressor present. -/
theorem applyConfigOps_reach_some :
    ∀ (ops : List ConfigOp) (o : Optimizer),
      (∃ op ∈ ops, op.isSetQuality = true ∨ op.isSetEncoder = true) →
      (applyConfigOps o ops).compressor.isSome = true := by
  intro ops
  induction ops with
  | nil =>
    intro o h
    obtain ⟨op, hop, _⟩ := h
    exact absurd hop (by simp)
  | cons op ops ih =>
    intro o h
    obtain ⟨x, hx, hxset⟩ := h
    rcases List.mem_cons.mp hx with hhead | htail
    · subst hhead
      cases x with
      | setQuality q =>
        refine applyConfigOps_keeps_some ops (applyConfigOp o (ConfigOp.setQuality q)) ?_
        cases hc : o.compressor with
        | none => simp [applyConfigOp, Optimizer.set_quality, hc]
        | some c => simp [applyConfigOp, Optimizer.set_quality, hc]
      | setEncoder e =>
        refine applyConfigOps_keeps_some ops (applyConfigOp o (ConfigOp.setEncoder e)) ?_
        cases hc : o.compressor with
        | none => simp [applyConfigOp, Optimizer.set_encoder, hc]
        | some c => simp [applyConfigOp, Optimizer.set_encoder, hc]
      | setTargets ts =>
        rcases hxset with hq | he
        · exact absurd hq (by simp [ConfigOp.isSetQuality])
        · exact absurd he (by simp [ConfigOp.isSetEncoder])
      | addTarget t =>
        rcases hxset with hq | he
        · exact absurd hq (by simp [ConfigOp.isSetQuality])
        · exact absurd he (by simp [ConfigOp.isSetEncoder])
    · exact ih (applyConfigOp o op) ⟨x, htail, hxset⟩

/-- Invariant: with no quality setter in the sequence, the compressor is
either absent or carries the default quality 75. -/
theorem applyConfigOps_quality_inv :
    ∀ (ops : List ConfigOp) (o : Optimizer),
      (∀ op ∈ ops, op.isSetQuality = false) →
      (o.compressor = none ∨ ∃ c, o.compressor = some c ∧ c.quality = 75) →
      ((applyConfigOps o ops).compressor = none ∨
        ∃ c, (applyConfigOps o ops).compressor = some c ∧ c.quality = 75) := by
  intro ops
  induction ops with
  | nil =>
    intro o _ hinv
    exact hinv
  | cons op ops ih =>
    intro o hq hinv
    have hrest : ∀ x ∈ ops, x.isSetQuality = false :=
      fun x hx => hq x (List.mem_cons_of_mem op hx)
    refine ih (applyConfigOp o op) hrest ?_
    cases op with
    | setQuality q =>
      exact absurd (hq _ (List.mem_cons_self _ _)) (by simp [ConfigOp.isSetQuality])
    | setEncoder e =>
      rcases hinv with hn | ⟨c, hc, h75⟩
      · right
        exact ⟨(Compressor.new 75).set_encoder e,
          by simp [applyConfigOp, Optimizer.set_encoder, hn], rfl⟩
      · right
        exact ⟨c.set_encoder e,
          by simp [applyConfigOp, Optimizer.set_encoder, hc], h75⟩
    | setTargets ts =>
      simpa [applyConfigOp, Optimizer.set_targets] using hinv
    | addTarget t =>
      simpa [applyConfigOp, Optimizer.add_target] using hinv

/-- Invariant: with no encoder setter in the sequence, the compressor is
either absent or carries the default `MozJpeg` encoder. -/
theorem applyConfigOps_encoder_inv :
    ∀ (ops : List ConfigOp) (o : Optimizer),
      (∀ op ∈ ops, op.isSetEncoder = false) →
      (o.compressor = none ∨
        ∃ c, o.compressor = some c ∧ c.encoder = Encoder.mozJpeg) →
      ((applyConfigOps o ops).compressor = none ∨
        ∃ c, (applyConfigOps o ops).compressor = some c ∧
          c.encoder = Encoder.mozJpeg) := by
  intro ops
  induction ops with
  | nil =>
    intro o _ hinv
    exact hinv
  | cons op ops ih =>
    intro o he hinv
    have hrest : ∀ x ∈ ops, x.isSetEncoder = false :=
      fun x hx => he x (List.mem_cons_of_mem op hx)
    refine ih (applyConfigOp o op) hrest ?_
    cases op with
    | setQuality q =>
      rcases hinv with hn | ⟨c, hc, hmoz⟩
      · right
        exact ⟨Compressor.new q,
          by simp [applyConfigOp, Optimizer.set_quality, hn], rfl⟩
      · right
        exact ⟨c.set_quality q,
          by simp [applyConfigOp, Optimizer.set_quality, hc], hmoz⟩
    | setEncoder e =>
      exact absurd (he _ (List.mem_cons_self _ _)) (by simp [ConfigOp.isSetEncoder])
    | setTargets ts =>
      simpa [applyConfigOp, Optimizer.set_targets] using hinv
    | addTarget t =>
      simpa [applyConfigOp, Optimizer.add_target] using hinv

/-- Claim C9.  Over every sequence of configuration calls on a freshly
constructed optimizer: when an encoder is set at some point and a quality
is never set, the resulting compressor exists and carries the default
quality 75; when a quality is set at some point and an encoder is never
set, the resulting compressor exists and carries the default `MozJpeg`
encoder. -/
theorem C9_configuration_defaults (img : Img) (bp : SrcPath) (ops : List ConfigOp) :
    ((∀ op ∈ ops, op.isSetQuality = false) →
      (∃ op ∈ ops, op.isSetEncoder = true) →
      ∃ c, (applyConfigOps (Optimizer.new img bp) ops).compressor = some c ∧
        c.quality = 75) ∧
    ((∀ op ∈ ops, op.isSetEncoder = false) →
      (∃ op ∈ ops, op.isSetQuality = true) →
      ∃ c, (applyConfigOps (Optimizer.new img bp) ops).compressor = some c ∧
        c.encoder = Encoder.mozJpeg) := by
  constructor
  · intro hq hex
    obtain ⟨op, hop, hope⟩ := hex
    have hsome := applyConfigOps_reach_some ops (Optimizer.new img bp)
      ⟨op, hop, Or.inr hope⟩
    have hinv := applyConfigOps_quality_inv ops (Optimizer.new img bp) hq (Or.inl rfl)
    rcases hinv with hn | ⟨c, hc, h75⟩
    · rw [hn] at hsome
      simp at hsome
    · exact ⟨c, hc, h75⟩
  · intro he hex
    obtain ⟨op, hop, hopq⟩ := hex
    have hsome := applyConfigOps_reach_some ops (Optimizer.new img bp)
      ⟨op, hop, Or.inl hopq⟩
    have hinv := applyConfigOps_encoder_inv ops (Optimizer.new img bp) he (Or.inl rfl)
    rcases hinv with hn | ⟨c, hc, hmoz⟩
    · rw [hn] at hsome
      simp at hsome
    · exact ⟨c, hc, hmoz⟩

/-- A concrete 800 by 600 source image. -/
def sampleImg : Img := ⟨800, 600, 1440000⟩

/-- A concrete source path `photos/raw/img.png`. -/
def samplePath : SrcPath := ⟨some ["photos", "raw"], some "img", some "png"⟩

/-- Claim C9, instantiated witness: setting only the WebP encoder yields a
compressor with the default quality 75, and setting only quality 80 yields
a compressor with the default `MozJpeg` encoder. -/
theorem C9_configuration_defaults_witness :
    (∃ c, (applyConfigOps (Optimizer.new sampleImg samplePath)
        [ConfigOp.setEncoder Encoder.webP]).compressor = some c ∧
        c.quality = 75) ∧
    (∃ c, (applyConfigOps (Optimizer.new sampleImg samplePath)
        [ConfigOp.setQuality 80]).compressor = some c ∧
        c.encoder = Encoder.mozJpeg) :=
  ⟨(C9_configuration_defaults sampleImg samplePath [ConfigOp.setEncoder Encoder.webP]).1
      (by decide) ⟨ConfigOp.setEncoder Encoder.webP, by simp, rfl⟩,
   (C9_configuration_defaults sampleImg samplePath [ConfigOp.setQuality 80]).2
      (by decide) ⟨ConfigOp.setQuality 80, by simp, rfl⟩⟩

end ImageOptimizer
